import Mathlib

/-!
Verification of the SuperTux level-document loader
(`src/supertux/level_parser.cpp`), shallowly embedded in Lean 4.

External collaborators (document tree reader, sector builder, Level
aggregate, storage-existence predicate, logging) are not part of the
source unit; they are modelled from the spec at their interface
boundary.  Numeric fields are modelled as `Int` (no claim depends on
floating-point semantics).  The blocking filesystem probe loop is
modelled with explicit fuel so that termination is a provable property
rather than an assumption.
-/

set_option autoImplicit false

namespace SuperTux

/-- Modelled from the spec: a value in the parsed document tree
(document tree reader is external, `util/reader*` not under `src/`).
A node is a string, an integer, or a nested mapping of ordered
(key, value) children. -/
inductive Value where
  | vstr : String → Value
  | vint : Int → Value
  | vmap : List (String × Value) → Value


/-- Modelled from the spec: a mapping node is an ordered list of
(key, child) entries; iteration yields them in document order. -/
abbrev ReaderMapping := List (String × Value)

/-- Modelled from the spec: `as_mapping` views a child node as a
mapping; behaviour on non-mapping nodes is owned by the external
reader and out of scope (modelled as the empty mapping). -/
def Value.asMapping : Value → ReaderMapping
  | .vmap m => m
  | _ => []

/-- First entry of the mapping with the given key, in document order. -/
def lookupVal : ReaderMapping → String → Option Value
  | [], _ => none
  | (k, v) :: rest, key => if k = key then some v else lookupVal rest key

/-- Modelled from the spec: `mapping.get(key, out)` for a string field —
a typed-optional read that assigns `out` when the key is present with a
string value and otherwise leaves it unchanged. -/
def getString (m : ReaderMapping) (key : String) (cur : String) : String :=
  match lookupVal m key with
  | some (.vstr s) => s
  | _ => cur

/-- Modelled from the spec: `mapping.get(key, out)` for an integer field —
assigns `out` when the key is present with an integer value and
otherwise leaves it unchanged. -/
def getInt (m : ReaderMapping) (key : String) (cur : Int) : Int :=
  match lookupVal m key with
  | some (.vint n) => n
  | _ => cur

/-- Modelled from the spec: the result of the document tree reader —
`get_filename()` (the source path or stream context label), the root
node's name (`root.get_name()`), and the root mapping
(`root.get_mapping()`). -/
structure ReaderDocument where
  filename : String
  rootName : String
  rootMapping : ReaderMapping


/-- Which Sector Builder entry point produced a sector, together with
the input it was given.  Sector content is opaque to this core. -/
inductive SectorSource where
  | fromReader : ReaderMapping → Bool → SectorSource
  | fromReaderOldFormat : ReaderMapping → Bool → SectorSource
  | fromNothing : SectorSource


/-- Modelled from the spec: a Sector is opaque to this core beyond
construction provenance and its name (settable via `set_name`). -/
structure Sector where
  source : SectorSource
  sname : String


/-- Modelled from the spec: Sector Builder current-format entry point
(`SectorParser::from_reader`); `sector_parser.cpp` is not under `src/`. -/
def SectorParser.from_reader (m : ReaderMapping) (editable : Bool) : Sector :=
  ⟨.fromReader m editable, ""⟩

/-- Modelled from the spec: Sector Builder legacy entry point
(`SectorParser::from_reader_old_format`). -/
def SectorParser.from_reader_old_format (m : ReaderMapping) (editable : Bool) : Sector :=
  ⟨.fromReaderOldFormat m editable, ""⟩

/-- Modelled from the spec: Sector Builder empty-sector entry point
(`SectorParser::from_nothing`); the caller names the sector afterwards. -/
def SectorParser.from_nothing : Sector :=
  ⟨.fromNothing, ""⟩

/-- Embeds `sector->set_name(...)`. -/
def Sector.set_name (s : Sector) (n : String) : Sector :=
  { s with sname := n }

/-- Modelled from the spec: the Level aggregate (`level.hpp`/`level.cpp`
are not under `src/`).  String metadata defaults to empty, `target-time`
to an unset sentinel, the sector sequence to empty.  `m_stats` is
modelled by the sector count recorded at initialization (`none` before
`init` runs).  `m_filename_writes` is a ghost counter of assignments to
`m_filename` performed by this subsystem, used to state the
set-exactly-once invariant. -/
structure Level where
  m_filename : String := ""
  m_name : String := ""
  m_author : String := ""
  m_contact : String := ""
  m_license : String := ""
  m_target_time : Int := 0
  m_tileset : String := ""
  m_sectors : List Sector := []
  m_stats : Option Nat := none
  m_filename_writes : Nat := 0


/-- An assignment `m_level.m_filename = ...` by this subsystem
(ghost-counted). -/
def Level.setFilename (lv : Level) (f : String) : Level :=
  { lv with m_filename := f, m_filename_writes := lv.m_filename_writes + 1 }

/-- Modelled from the spec: `Level::add_sector` appends the sector to
the ordered sector sequence (ownership transfer at append time). -/
def Level.add_sector (lv : Level) (s : Sector) : Level :=
  { lv with m_sectors := lv.m_sectors ++ [s] }

/-- Modelled from the spec: `m_level.m_stats.init(m_level)` initializes
the statistics object from the Level's final sector set. -/
def Level.statsInit (lv : Level) : Level :=
  { lv with m_stats := some lv.m_sectors.length }

/-- A log line emitted during a load (`log_info` / `log_warning`). -/
inductive LogEntry where
  | info : String → LogEntry
  | warning : String → LogEntry


namespace LevelParser

/-- Embeds `LevelParser::load_old_format`: read `name` and `author` from the
root mapping, build the sole sector via the legacy entry point on the
same root mapping, and append it. -/
def load_old_format (editable : Bool) (reader : ReaderMapping) (lv : Level) : Level :=
  let lv := { lv with
    m_name := getString reader "name" lv.m_name,
    m_author := getString reader "author" lv.m_author }
  lv.add_sector (SectorParser.from_reader_old_format reader editable)

/-- The current-format sector loop of `LevelParser::load(const
ReaderDocument&)`: iterate the root mapping's children in document
order; for each child keyed `sector`, build a sector via the
current-format entry point and append it. -/
def sectorLoop (editable : Bool) (lv : Level) : List (String × Value) → Level
  | [] => lv
  | (k, v) :: rest =>
    if k = "sector" then
      sectorLoop editable (lv.add_sector (SectorParser.from_reader v.asMapping editable)) rest
    else
      sectorLoop editable lv rest

/-- Embeds `LevelParser::load(const ReaderDocument&)`: validate the root tag,
read the `version` field (default 1), dispatch to the legacy path,
the current-format path, or the unsupported-version warning, then run
stats initialization.  Returns the populated level and the log lines,
or the fatal error message. -/
def load_doc (editable : Bool) (doc : ReaderDocument) (lv : Level) :
    Except String (Level × List LogEntry) :=
  if doc.rootName ≠ "supertux-level" then
    Except.error "file is not a supertux-level file."
  else
    let level := doc.rootMapping
    let version := getInt level "version" 1
    if version = 1 then
      let lv := load_old_format editable level lv
      Except.ok (lv.statsInit,
        [LogEntry.info ("[" ++ doc.filename ++ "] level uses old format: version 1")])
    else if version = 2 then
      let lv := { lv with
        m_tileset := getString level "tileset" lv.m_tileset,
        m_name := getString level "name" lv.m_name,
        m_author := getString level "author" lv.m_author,
        m_contact := getString level "contact" lv.m_contact,
        m_license := getString level "license" lv.m_license,
        m_target_time := getInt level "target-time" lv.m_target_time }
      let lv := sectorLoop editable lv level
      let logs :=
        if lv.m_license = "" then
          [LogEntry.warning ("[" ++ doc.filename ++ "] The level author \"" ++ lv.m_author
            ++ "\" did not specify a license for this level \"" ++ lv.m_name
            ++ "\". You might not be allowed to share it.")]
        else []
      Except.ok (lv.statsInit, logs)
    else
      Except.ok (lv.statsInit,
        [LogEntry.warning ("[" ++ doc.filename ++ "] level format version "
          ++ toString version ++ " is not supported")])

/-- Embeds `LevelParser::load(const std::string& filepath)`: set the Level's
filename, then read the document and parse it; any failure inside the
try block (reader error or parse error) is wrapped with a message
naming the file path and re-raised.  The document reader is abstracted
as `fs : path → Except error document`. -/
def load_file (editable : Bool) (fs : String → Except String ReaderDocument)
    (filepath : String) (lv : Level) : Except String (Level × List LogEntry) :=
  let lv := lv.setFilename filepath
  match fs filepath with
  | Except.error e =>
    Except.error ("Problem when reading level '" ++ filepath ++ "': " ++ e)
  | Except.ok doc =>
    match load_doc editable doc lv with
    | Except.error e =>
      Except.error ("Problem when reading level '" ++ filepath ++ "': " ++ e)
    | Except.ok r => Except.ok r

/-- Embeds `LevelParser::from_stream`: parse the document from the stream
(abstracted as the reader's result for that stream) and load it into a
fresh Level.  Errors propagate unwrapped. -/
def from_stream (docResult : Except String ReaderDocument) (editable : Bool) :
    Except String (Level × List LogEntry) :=
  match docResult with
  | Except.error e => Except.error e
  | Except.ok doc => load_doc editable doc {}

/-- Embeds `LevelParser::from_file`: load a fresh Level from a file path. -/
def from_file (fs : String → Except String ReaderDocument)
    (filename : String) (editable : Bool) : Except String (Level × List LogEntry) :=
  load_file editable fs filename {}

/-- Embeds `LevelParser::get_level_name`: best-effort metadata probe.  On a
reader failure, catch it, log a warning naming the path and the
underlying error, and return the empty string; on a root-tag mismatch
return the empty string; otherwise return the root mapping's `name`
field. -/
def get_level_name (fs : String → Except String ReaderDocument)
    (filename : String) : String × List LogEntry :=
  match fs filename with
  | Except.error e =>
    ("", [LogEntry.warning ("Problem getting name of '" ++ filename ++ "': " ++ e)])
  | Except.ok doc =>
    if doc.rootName ≠ "supertux-level" then
      ("", [])
    else
      (getString doc.rootMapping "name" "", [])

/-- Embeds `LevelParser::create`: seed the fresh Level's filename, name, fixed
license and tileset default, then build one empty sector, name it
`main`, and append it. -/
def create (filepath levelname : String) (worldmap : Bool) (lv : Level) : Level :=
  let lv := lv.setFilename filepath
  let lv := { lv with
    m_name := levelname,
    m_license := "CC-BY-SA 4.0 International",
    m_tileset := if worldmap then "images/worldmap.strf" else "images/tiles.strf" }
  lv.add_sector (SectorParser.from_nothing.set_name "main")

/-- The `do num++; file = mk num; while (exists file)` probe loop shared
by `from_nothing` and `from_nothing_worldmap`, with explicit fuel: it
returns the first suffix `n > start` whose candidate filename does not
exist, or `none` when the fuel runs out before a free suffix is found
(the C++ loop would still be running). -/
def probeLoop (ex : String → Bool) (mk : Nat → String) : Nat → Nat → Option Nat
  | 0, _ => none
  | fuel + 1, num =>
    let n := num + 1
    if ex (mk n) then probeLoop ex mk fuel n else some n

/-- The full probe path `basedir + "/level" + to_string(num) + ".stl"`. -/
def levelFileName (basedir : String) (n : Nat) : String :=
  basedir ++ "/level" ++ toString n ++ ".stl"

/-- The full probe path `basedir + "/worldmap" + to_string(num) + ".stwm"`. -/
def worldmapFileName (basedir : String) (n : Nat) : String :=
  basedir ++ "/worldmap" ++ toString n ++ ".stwm"

/-- Embeds `LevelParser::from_nothing`: probe `basedir/level<N>.stl` for
N = 1, 2, ... against the storage-existence predicate `ex`
(`PHYSFS_exists`), then create the level with the directory-less
filename `level<N>.stl` and name `Level <N>`.  `none` means the fuel
bound was hit (the C++ loop would not yet have terminated). -/
def from_nothing (ex : String → Bool) (basedir : String) (fuel : Nat) : Option Level :=
  match probeLoop ex (levelFileName basedir) fuel 0 with
  | none => none
  | some num =>
    let level_name := "Level " ++ toString num
    let level_file := "level" ++ toString num ++ ".stl"
    some (create level_file level_name false {})

/-- Embeds `LevelParser::from_nothing_worldmap`: if `basedir/worldmap.stwm`
does not exist choose `worldmap.stwm`; otherwise probe
`basedir/worldmap<N>.stwm` for N = 1, 2, ... and choose the
directory-less `worldmap<N>.stwm`.  The level name is the
caller-supplied argument. -/
def from_nothing_worldmap (ex : String → Bool) (basedir : String)
    (name : String) (fuel : Nat) : Option Level :=
  if ex (basedir ++ "/worldmap.stwm") then
    match probeLoop ex (worldmapFileName basedir) fuel 0 with
    | none => none
    | some num =>
      some (create ("worldmap" ++ toString num ++ ".stwm") name true {})
  else
    some (create "worldmap.stwm" name true {})

end LevelParser

/-! ## Helper lemmas -/

namespace LevelParser

/-- The sector loop appends, in document order, exactly one sector per
child keyed `sector`, built by the current-format entry point. -/
theorem sectorLoop_m_sectors (editable : Bool) (entries : List (String × Value)) (lv : Level) :
    (sectorLoop editable lv entries).m_sectors =
      lv.m_sectors ++ entries.filterMap (fun p =>
        if p.1 = "sector" then some (SectorParser.from_reader p.2.asMapping editable)
        else none) := by
  induction entries generalizing lv with
  | nil => simp [sectorLoop]
  | cons p rest ih =>
    obtain ⟨k, v⟩ := p
    by_cases hk : k = "sector"
    · simp [sectorLoop, hk, ih, Level.add_sector]
    · simp [sectorLoop, hk, ih]

/-- The sector loop touches only the sector sequence: the filename and
its ghost write counter are unchanged. -/
theorem sectorLoop_m_filename (editable : Bool) (entries : List (String × Value)) (lv : Level) :
    (sectorLoop editable lv entries).m_filename = lv.m_filename ∧
    (sectorLoop editable lv entries).m_filename_writes = lv.m_filename_writes := by
  induction entries generalizing lv with
  | nil => exact ⟨rfl, rfl⟩
  | cons p rest ih =>
    obtain ⟨k, v⟩ := p
    by_cases hk : k = "sector"
    · simpa [sectorLoop, hk, Level.add_sector] using ih _
    · simpa [sectorLoop, hk] using ih lv

/-- A successful `load_doc` never assigns the Level's filename: the
field and its ghost write counter pass through unchanged. -/
theorem load_doc_ok_m_filename (editable : Bool) (doc : ReaderDocument)
    (lv lv2 : Level) (logs : List LogEntry)
    (h : load_doc editable doc lv = Except.ok (lv2, logs)) :
    lv2.m_filename = lv.m_filename ∧
    lv2.m_filename_writes = lv.m_filename_writes := by
  simp only [load_doc] at h
  split at h
  · cases h
  · split at h
    · obtain ⟨h1, h2⟩ := Prod.mk.injEq .. ▸ (Except.ok.inj h)
      subst h1
      exact ⟨rfl, rfl⟩
    · split at h
      · obtain ⟨h1, h2⟩ := Prod.mk.injEq .. ▸ (Except.ok.inj h)
        subst h1
        simpa [Level.statsInit] using sectorLoop_m_filename editable doc.rootMapping _
      · obtain ⟨h1, h2⟩ := Prod.mk.injEq .. ▸ (Except.ok.inj h)
        subst h1
        exact ⟨rfl, rfl⟩

end LevelParser

/-! ## Claim theorems -/

namespace LevelParser

/-- C1: for a version-2 document (valid root tag), loading succeeds and
appends to the Level exactly one sector per root child whose key equals
`sector`, built by `SectorParser::from_reader`, preserving document
order; children with other keys contribute nothing. -/
theorem load_doc_v2_sector_order (editable : Bool) (doc : ReaderDocument) (lv : Level)
    (hroot : doc.rootName = "supertux-level")
    (hver : getInt doc.rootMapping "version" 1 = 2) :
    ∃ lv2 logs, load_doc editable doc lv = Except.ok (lv2, logs) ∧
      lv2.m_sectors = lv.m_sectors ++ doc.rootMapping.filterMap (fun p =>
        if p.1 = "sector" then some (SectorParser.from_reader p.2.asMapping editable)
        else none) := by
  simp only [load_doc, hroot, hver]
  norm_num
  simp [Level.statsInit, sectorLoop_m_sectors]

/-- C1 witness: a version-2 document with three `sector` children A, B,
C (and one unrelated child) yields exactly those three sectors in
document order. -/
theorem load_doc_v2_sector_order_witness :
    ∃ lv2 logs,
      load_doc false
        ⟨"test.stl", "supertux-level",
          [("version", Value.vint 2),
           ("sector", Value.vmap [("name", Value.vstr "A")]),
           ("music", Value.vstr "x.ogg"),
           ("sector", Value.vmap [("name", Value.vstr "B")]),
           ("sector", Value.vmap [("name", Value.vstr "C")])]⟩ {} =
        Except.ok (lv2, logs) ∧
      lv2.m_sectors =
        [SectorParser.from_reader [("name", Value.vstr "A")] false,
         SectorParser.from_reader [("name", Value.vstr "B")] false,
         SectorParser.from_reader [("name", Value.vstr "C")] false] := by
  obtain ⟨lv2, logs, h1, h2⟩ :=
    load_doc_v2_sector_order false
      ⟨"test.stl", "supertux-level",
        [("version", Value.vint 2),
         ("sector", Value.vmap [("name", Value.vstr "A")]),
         ("music", Value.vstr "x.ogg"),
         ("sector", Value.vmap [("name", Value.vstr "B")]),
         ("sector", Value.vmap [("name", Value.vstr "C")])]⟩ {} rfl rfl
  exact ⟨lv2, logs, h1, by rw [h2]; rfl⟩

/-- C2: a document with a valid root tag and no `version` field takes
the legacy (version 1) path: the old-format log notice is emitted,
`name` and `author` are read from the root mapping, the legacy Sector
Builder entry point is invoked on that same root mapping, and exactly
one sector is appended. -/
theorem load_doc_no_version_legacy (editable : Bool) (doc : ReaderDocument) (lv : Level)
    (hroot : doc.rootName = "supertux-level")
    (hver : lookupVal doc.rootMapping "version" = none) :
    ∃ lv2, load_doc editable doc lv =
        Except.ok (lv2,
          [LogEntry.info ("[" ++ doc.filename ++ "] level uses old format: version 1")]) ∧
      lv2.m_name = getString doc.rootMapping "name" lv.m_name ∧
      lv2.m_author = getString doc.rootMapping "author" lv.m_author ∧
      lv2.m_sectors = lv.m_sectors ++
        [SectorParser.from_reader_old_format doc.rootMapping editable] := by
  have hv : getInt doc.rootMapping "version" 1 = 1 := by
    unfold getInt
    rw [hver]
  simp only [load_doc, hroot, hv]
  norm_num
  simp [Level.statsInit, load_old_format, Level.add_sector]

/-- C2 witness: a version-less document with `name="Foo"`,
`author="Bar"` goes down the legacy path with a single old-format
sector. -/
theorem load_doc_no_version_legacy_witness :
    ∃ lv2, load_doc false
        ⟨"old.stl", "supertux-level",
          [("name", Value.vstr "Foo"), ("author", Value.vstr "Bar")]⟩ {} =
        Except.ok (lv2,
          [LogEntry.info "[old.stl] level uses old format: version 1"]) ∧
      lv2.m_name = "Foo" ∧
      lv2.m_author = "Bar" ∧
      lv2.m_sectors =
        [SectorParser.from_reader_old_format
          [("name", Value.vstr "Foo"), ("author", Value.vstr "Bar")] false] := by
  obtain ⟨lv2, h1, h2, h3, h4⟩ :=
    load_doc_no_version_legacy false
      ⟨"old.stl", "supertux-level",
        [("name", Value.vstr "Foo"), ("author", Value.vstr "Bar")]⟩ {} rfl rfl
  exact ⟨lv2, h1, h2, h3, h4⟩

/-- C3: a document with a valid root tag and a `version` other than 1
and 2 loads without error: no sector is parsed (the sector sequence is
unchanged), exactly one unsupported-version warning is logged, and
stats initialization still runs. -/
theorem load_doc_unsupported_version (editable : Bool) (doc : ReaderDocument) (lv : Level)
    (hroot : doc.rootName = "supertux-level")
    (h1 : getInt doc.rootMapping "version" 1 ≠ 1)
    (h2 : getInt doc.rootMapping "version" 1 ≠ 2) :
    load_doc editable doc lv =
      Except.ok (lv.statsInit,
        [LogEntry.warning ("[" ++ doc.filename ++ "] level format version "
          ++ toString (getInt doc.rootMapping "version" 1) ++ " is not supported")]) ∧
    lv.statsInit.m_sectors = lv.m_sectors ∧
    lv.statsInit.m_stats = some lv.m_sectors.length := by
  refine ⟨?_, rfl, rfl⟩
  simp only [load_doc, hroot, h1, h2]
  norm_num [h1, h2]

/-- C3 witness: `version=99` yields a successful load with the Level's
defaults, zero sectors, one warning, and initialized stats. -/
theorem load_doc_unsupported_version_witness :
    load_doc false ⟨"v99.stl", "supertux-level", [("version", Value.vint 99)]⟩ {} =
      Except.ok (Level.statsInit {},
        [LogEntry.warning "[v99.stl] level format version 99 is not supported"]) ∧
    (Level.statsInit {}).m_sectors = ([] : List Sector) ∧
    (Level.statsInit {}).m_stats = some 0 := by
  obtain ⟨h1, h2, h3⟩ :=
    load_doc_unsupported_version false
      ⟨"v99.stl", "supertux-level", [("version", Value.vint 99)]⟩ {}
      rfl (by decide) (by decide)
  exact ⟨h1, h2, h3⟩

/-- C4: when the document reader succeeds but the root tag is not
`supertux-level`, `get_level_name` returns the empty string (and logs
nothing), while the full loader fails with the fatal
"not a supertux-level file" error. -/
theorem root_tag_mismatch (fs : String → Except String ReaderDocument)
    (filename : String) (doc : ReaderDocument) (editable : Bool) (lv : Level)
    (hfs : fs filename = Except.ok doc)
    (hroot : doc.rootName ≠ "supertux-level") :
    get_level_name fs filename = ("", []) ∧
    load_doc editable doc lv = Except.error "file is not a supertux-level file." := by
  constructor
  · simp only [get_level_name, hfs]
    simp [hroot]
  · simp only [load_doc]
    rw [if_pos hroot]

/-- C4 witness: a well-formed document with root tag `foo` gives the
empty name via the probe and the fatal error via the loader. -/
theorem root_tag_mismatch_witness :
    get_level_name
      (fun _ => Except.ok ⟨"foo.stl", "foo", [("name", Value.vstr "Hidden")]⟩)
      "foo.stl" = ("", []) ∧
    load_doc false ⟨"foo.stl", "foo", [("name", Value.vstr "Hidden")]⟩ {} =
      Except.error "file is not a supertux-level file." := by
  obtain ⟨h1, h2⟩ :=
    root_tag_mismatch
      (fun _ => Except.ok ⟨"foo.stl", "foo", [("name", Value.vstr "Hidden")]⟩)
      "foo.stl" ⟨"foo.stl", "foo", [("name", Value.vstr "Hidden")]⟩ false {}
      rfl (by decide)
  exact ⟨h1, h2⟩

/-- C5: `get_level_name` never fails past its boundary.  When the
reader fails, the failure is caught, one warning naming the path and
the underlying error is logged, and the empty string is returned; when
the reader succeeds on a document with the expected root tag, the root
mapping's `name` field is returned. -/
theorem get_level_name_best_effort (fs : String → Except String ReaderDocument)
    (filename : String) :
    (∀ e, fs filename = Except.error e →
      get_level_name fs filename =
        ("", [LogEntry.warning ("Problem getting name of '" ++ filename ++ "': " ++ e)])) ∧
    (∀ doc, fs filename = Except.ok doc → doc.rootName = "supertux-level" →
      get_level_name fs filename = (getString doc.rootMapping "name" "", [])) := by
  constructor
  · intro e he
    simp only [get_level_name, he]
  · intro doc hdoc hroot
    simp only [get_level_name, hdoc]
    simp [hroot]

/-- C5 witness: an erroring reader is caught and turned into an empty
name plus one warning naming the path and the error; a successful
reader yields the `name` field. -/
theorem get_level_name_best_effort_witness :
    get_level_name (fun _ => Except.error "read failed") "lvl.stl" =
      ("", [LogEntry.warning "Problem getting name of 'lvl.stl': read failed"]) ∧
    get_level_name
      (fun _ => Except.ok ⟨"ok.stl", "supertux-level", [("name", Value.vstr "Foo")]⟩)
      "ok.stl" = ("Foo", []) := by
  constructor
  · exact (get_level_name_best_effort (fun _ => Except.error "read failed")
      "lvl.stl").1 "read failed" rfl
  · exact (get_level_name_best_effort
      (fun _ => Except.ok ⟨"ok.stl", "supertux-level", [("name", Value.vstr "Foo")]⟩)
      "ok.stl").2 ⟨"ok.stl", "supertux-level", [("name", Value.vstr "Foo")]⟩ rfl rfl

/-- C8: loading from a file path sets the Level's filename before
parsing begins (the document is parsed against the
filename-already-assigned level state); any reader error and any parse
error is wrapped in a fatal error naming the file path and the
original message; on success the returned Level's filename is the
path. -/
theorem load_file_wraps_errors (editable : Bool)
    (fs : String → Except String ReaderDocument) (filepath : String) (lv : Level) :
    (∀ e, fs filepath = Except.error e →
      load_file editable fs filepath lv =
        Except.error ("Problem when reading level '" ++ filepath ++ "': " ++ e)) ∧
    (∀ doc e, fs filepath = Except.ok doc →
      load_doc editable doc (lv.setFilename filepath) = Except.error e →
      load_file editable fs filepath lv =
        Except.error ("Problem when reading level '" ++ filepath ++ "': " ++ e)) ∧
    (∀ doc lv2 logs, fs filepath = Except.ok doc →
      load_doc editable doc (lv.setFilename filepath) = Except.ok (lv2, logs) →
      load_file editable fs filepath lv = Except.ok (lv2, logs) ∧
        lv2.m_filename = filepath) := by
  refine ⟨?_, ?_, ?_⟩
  · intro e he
    simp only [load_file, he]
  · intro doc e hdoc hload
    simp only [load_file, hdoc, hload]
  · intro doc lv2 logs hdoc hload
    refine ⟨by simp only [load_file, hdoc, hload], ?_⟩
    have := (load_doc_ok_m_filename editable doc _ lv2 logs hload).1
    simpa [Level.setFilename] using this

/-- C8 witness: a failing reader is wrapped with the path and original
message; a root-tag parse error is wrapped the same way; a successful
load carries the path as the Level's filename. -/
theorem load_file_wraps_errors_witness :
    load_file false (fun _ => Except.error "No such file") "a.stl" {} =
      Except.error "Problem when reading level 'a.stl': No such file" ∧
    load_file false (fun _ => Except.ok ⟨"b.stl", "wrong-tag", []⟩) "b.stl" {} =
      Except.error
        "Problem when reading level 'b.stl': file is not a supertux-level file." ∧
    ∃ lv2 logs,
      load_file false (fun _ => Except.ok ⟨"c.stl", "supertux-level", []⟩) "c.stl" {} =
        Except.ok (lv2, logs) ∧ lv2.m_filename = "c.stl" := by
  refine ⟨?_, ?_, ?_⟩
  · exact (load_file_wraps_errors false (fun _ => Except.error "No such file")
      "a.stl" {}).1 "No such file" rfl
  · exact (load_file_wraps_errors false
      (fun _ => Except.ok ⟨"b.stl", "wrong-tag", []⟩) "b.stl" {}).2.1
      ⟨"b.stl", "wrong-tag", []⟩ "file is not a supertux-level file." rfl (by
        simp only [load_doc]
        simp)
  · obtain ⟨h1, h2⟩ := (load_file_wraps_errors false
      (fun _ => Except.ok ⟨"c.stl", "supertux-level", []⟩) "c.stl" {}).2.2
      ⟨"c.stl", "supertux-level", []⟩ _ _ rfl rfl
    exact ⟨_, _, h1, h2⟩

/-- With enough fuel, the probe loop started at `num` returns the first
suffix above `num` whose candidate filename does not exist. -/
theorem probeLoop_finds (ex : String → Bool) (mk : Nat → String) :
    ∀ (fuel num N : Nat), num < N → N ≤ num + fuel →
      ex (mk N) = false → (∀ m, num < m → m < N → ex (mk m) = true) →
      probeLoop ex mk fuel num = some N := by
  intro fuel
  induction fuel with
  | zero =>
    intro num N h1 h2 _ _
    omega
  | succ fuel ih =>
    intro num N h1 h2 hfree hbusy
    by_cases h : ex (mk (num + 1)) = true
    · have hne : num + 1 ≠ N := by
        intro he
        rw [he, hfree] at h
        cases h
      simp only [probeLoop, h, if_true]
      exact ih (num + 1) N (by omega) (by omega) hfree
        (fun m hm1 hm2 => hbusy m (by omega) hm2)
    · have h' : ex (mk (num + 1)) = false := by
        simpa using h
      have hN : N = num + 1 := by
        by_contra hne
        have hlt : num + 1 < N := by omega
        have := hbusy (num + 1) (by omega) hlt
        rw [h'] at this
        cases this
      simp only [probeLoop, h', if_false, Bool.false_eq_true]
      rw [hN]

/-- When every candidate above `num` exists, the probe loop exhausts
any amount of fuel without an answer: the unbounded C++ loop would not
terminate. -/
theorem probeLoop_exhausts (ex : String → Bool) (mk : Nat → String) :
    ∀ (fuel num : Nat), (∀ n, num < n → ex (mk n) = true) →
      probeLoop ex mk fuel num = none := by
  intro fuel
  induction fuel with
  | zero => intro num _; rfl
  | succ fuel ih =>
    intro num h
    simp only [probeLoop, h (num + 1) (by omega), if_true]
    exact ih (num + 1) (fun n hn => h n (by omega))

/-- C6: `from_nothing` picks the smallest N ≥ 1 such that the full
probe path `basedir/level<N>.stl` does not exist, and produces a Level
whose filename is the directory-less `level<N>.stl` and whose name is
`Level <N>`. -/
theorem from_nothing_first_free (ex : String → Bool) (basedir : String) (N fuel : Nat)
    (hN : 1 ≤ N) (hfuel : N ≤ fuel)
    (hfree : ex (levelFileName basedir N) = false)
    (hbusy : ∀ m, m < N → 1 ≤ m → ex (levelFileName basedir m) = true) :
    ∃ lv, from_nothing ex basedir fuel = some lv ∧
      lv.m_filename = "level" ++ toString N ++ ".stl" ∧
      lv.m_name = "Level " ++ toString N := by
  have hprobe : probeLoop ex (levelFileName basedir) fuel 0 = some N :=
    probeLoop_finds ex (levelFileName basedir) fuel 0 N (by omega) (by omega) hfree
      (fun m hm1 hm2 => hbusy m hm2 hm1)
  refine ⟨create ("level" ++ toString N ++ ".stl") ("Level " ++ toString N) false {},
    ?_, rfl, rfl⟩
  simp only [from_nothing, hprobe]

/-- C6 witness: with `d/level1.stl` and `d/level2.stl` existing but not
`d/level3.stl`, the created level is `level3.stl` / `Level 3`. -/
theorem from_nothing_first_free_witness :
    ∃ lv,
      from_nothing (fun s => s == "d/level1.stl" || s == "d/level2.stl") "d" 3 =
        some lv ∧
      lv.m_filename = "level3.stl" ∧ lv.m_name = "Level 3" := by
  obtain ⟨lv, h1, h2, h3⟩ :=
    from_nothing_first_free (fun s => s == "d/level1.stl" || s == "d/level2.stl")
      "d" 3 3 (by decide) (by decide) (by decide) (by decide)
  exact ⟨lv, h1, h2, h3⟩

/-- C7: `from_nothing_worldmap` chooses `worldmap.stwm` when
`basedir/worldmap.stwm` does not exist, and otherwise the
directory-less `worldmap<N>.stwm` for the smallest N ≥ 1 whose full
probe path does not exist; in both cases the Level's name is the
caller-supplied argument and exactly one sector named `main` is
appended. -/
theorem from_nothing_worldmap_choice (ex : String → Bool) (basedir wname : String)
    (N fuel : Nat) :
    (ex (basedir ++ "/worldmap.stwm") = false →
      ∃ lv, from_nothing_worldmap ex basedir wname fuel = some lv ∧
        lv.m_filename = "worldmap.stwm" ∧ lv.m_name = wname ∧
        lv.m_sectors = [{ source := SectorSource.fromNothing, sname := "main" }]) ∧
    (ex (basedir ++ "/worldmap.stwm") = true → 1 ≤ N → N ≤ fuel →
      ex (worldmapFileName basedir N) = false →
      (∀ m, m < N → 1 ≤ m → ex (worldmapFileName basedir m) = true) →
      ∃ lv, from_nothing_worldmap ex basedir wname fuel = some lv ∧
        lv.m_filename = "worldmap" ++ toString N ++ ".stwm" ∧ lv.m_name = wname ∧
        lv.m_sectors = [{ source := SectorSource.fromNothing, sname := "main" }]) := by
  constructor
  · intro hfree
    refine ⟨create "worldmap.stwm" wname true {}, ?_, rfl, rfl, rfl⟩
    simp only [from_nothing_worldmap, hfree, Bool.false_eq_true, if_false]
  · intro hex hN hfuel hfree hbusy
    have hprobe : probeLoop ex (worldmapFileName basedir) fuel 0 = some N :=
      probeLoop_finds ex (worldmapFileName basedir) fuel 0 N (by omega) (by omega) hfree
        (fun m hm1 hm2 => hbusy m hm2 hm1)
    refine ⟨create ("worldmap" ++ toString N ++ ".stwm") wname true {},
      ?_, rfl, rfl, rfl⟩
    simp only [from_nothing_worldmap, hex, if_true, hprobe]

/-- C7 witness: with no `worldmap.stwm` the unsuffixed name is chosen;
with `d/worldmap.stwm` existing but not `d/worldmap1.stwm`, the
suffixed `worldmap1.stwm` is chosen; both carry the caller's name and
one `main` sector. -/
theorem from_nothing_worldmap_choice_witness :
    (∃ lv, from_nothing_worldmap (fun _ => false) "d" "My World" 1 = some lv ∧
      lv.m_filename = "worldmap.stwm" ∧ lv.m_name = "My World" ∧
      lv.m_sectors = [{ source := SectorSource.fromNothing, sname := "main" }]) ∧
    (∃ lv, from_nothing_worldmap (fun s => s == "d/worldmap.stwm") "d" "My World" 1 =
        some lv ∧
      lv.m_filename = "worldmap1.stwm" ∧ lv.m_name = "My World" ∧
      lv.m_sectors = [{ source := SectorSource.fromNothing, sname := "main" }]) := by
  constructor
  · exact (from_nothing_worldmap_choice (fun _ => false) "d" "My World" 1 1).1 rfl
  · exact (from_nothing_worldmap_choice (fun s => s == "d/worldmap.stwm")
      "d" "My World" 1 1).2 (by decide) (by decide) (by decide) (by decide)
      (by decide)

/-- C10: the filename probe loop is a well-founded search.  Whenever
some suffix N ≥ 1 names a non-existing file, the loop (given at least
N units of fuel) terminates at the first such free suffix; and when
every candidate exists, no amount of fuel produces an answer — the
unbounded loop would not terminate. -/
theorem probeLoop_termination (ex : String → Bool) (mk : Nat → String) :
    (∀ (N fuel : Nat), 1 ≤ N → N ≤ fuel → ex (mk N) = false →
      (∀ m, m < N → 1 ≤ m → ex (mk m) = true) →
      probeLoop ex mk fuel 0 = some N) ∧
    (∀ (fuel num : Nat), (∀ n, num < n → ex (mk n) = true) →
      probeLoop ex mk fuel num = none) := by
  constructor
  · intro N fuel hN hfuel hfree hbusy
    exact probeLoop_finds ex mk fuel 0 N (by omega) (by omega) hfree
      (fun m hm1 hm2 => hbusy m hm2 hm1)
  · exact probeLoop_exhausts ex mk

/-- C10 witness: with no file existing the loop stops at suffix 1; with
every file existing it returns no answer even with ample fuel. -/
theorem probeLoop_termination_witness :
    probeLoop (fun _ => false) (fun n => toString n) 1 0 = some 1 ∧
    probeLoop (fun _ => true) (fun n => toString n) 9 0 = none := by
  constructor
  · exact (probeLoop_termination (fun _ => false) (fun n => toString n)).1 1 1
      (by decide) (by decide) rfl (by decide)
  · exact (probeLoop_termination (fun _ => true) (fun n => toString n)).2 9 0
      (fun n _ => rfl)

/-- C9 counterexample: `from_stream` is one of the four entry points,
yet a successful `from_stream` load performs zero assignments to the
Level's filename — not the exactly one the claim states. -/
theorem from_stream_filename_never_assigned :
    (from_stream (Except.ok ⟨"ctx", "supertux-level", []⟩) false).toOption.map
      (fun r => r.1.m_filename_writes) = some 0 := rfl

/-- C9 (amended): a successful `from_file`, `from_nothing` or
`from_nothing_worldmap` call assigns the Level's filename exactly once
and never mutates it afterward, while a successful `from_stream` call
performs no filename assignment at all, leaving the field at its
initial empty value. -/
theorem filename_write_discipline (fs : String → Except String ReaderDocument)
    (ex : String → Bool) (filepath basedir wname : String)
    (editable : Bool) (fuel : Nat) (docResult : Except String ReaderDocument) :
    (∀ lv logs, from_file fs filepath editable = Except.ok (lv, logs) →
      lv.m_filename_writes = 1 ∧ lv.m_filename = filepath) ∧
    (∀ lv, from_nothing ex basedir fuel = some lv → lv.m_filename_writes = 1) ∧
    (∀ lv, from_nothing_worldmap ex basedir wname fuel = some lv →
      lv.m_filename_writes = 1) ∧
    (∀ lv logs, from_stream docResult editable = Except.ok (lv, logs) →
      lv.m_filename_writes = 0 ∧ lv.m_filename = "") := by
  refine ⟨?_, ?_, ?_, ?_⟩
  · intro lv logs h
    simp only [from_file, load_file] at h
    split at h
    · cases h
    · split at h
      · cases h
      · rename_i r hld
        cases Except.ok.inj h
        have hmf := load_doc_ok_m_filename _ _ _ _ _ hld
        exact ⟨hmf.2, hmf.1⟩
  · intro lv h
    simp only [from_nothing] at h
    cases hp : probeLoop ex (levelFileName basedir) fuel 0 with
    | none => rw [hp] at h; cases h
    | some num =>
      rw [hp] at h
      have := Option.some.inj h
      subst this
      rfl
  · intro lv h
    simp only [from_nothing_worldmap] at h
    by_cases hex : ex (basedir ++ "/worldmap.stwm") = true
    · rw [if_pos hex] at h
      cases hp : probeLoop ex (worldmapFileName basedir) fuel 0 with
      | none => rw [hp] at h; cases h
      | some num =>
        rw [hp] at h
        have := Option.some.inj h
        subst this
        rfl
    · rw [if_neg hex] at h
      have := Option.some.inj h
      subst this
      rfl
  · intro lv logs h
    cases docResult with
    | error e => cases h
    | ok doc =>
      simp only [from_stream] at h
      have := load_doc_ok_m_filename editable doc {} lv logs h
      exact ⟨this.2, this.1⟩

/-- C9 (amended) witness: concrete successful calls through all four
entry points showing one filename assignment for the file, level and
worldmap creators, and zero for the stream loader. -/
theorem filename_write_discipline_witness :
    (∃ lv logs,
      from_file (fun _ => Except.ok ⟨"w.stl", "supertux-level", []⟩) "w.stl" false =
        Except.ok (lv, logs) ∧ lv.m_filename_writes = 1 ∧ lv.m_filename = "w.stl") ∧
    (∃ lv, from_nothing (fun _ => false) "d" 1 = some lv ∧
      lv.m_filename_writes = 1) ∧
    (∃ lv, from_nothing_worldmap (fun _ => false) "d" "W" 1 = some lv ∧
      lv.m_filename_writes = 1) ∧
    (∃ lv logs,
      from_stream (Except.ok ⟨"s", "supertux-level", []⟩) false =
        Except.ok (lv, logs) ∧ lv.m_filename_writes = 0 ∧ lv.m_filename = "") := by
  refine ⟨?_, ?_, ?_, ?_⟩
  · obtain ⟨h1, h2⟩ := (filename_write_discipline
      (fun _ => Except.ok ⟨"w.stl", "supertux-level", []⟩) (fun _ => false)
      "w.stl" "d" "W" false 1 (Except.error "")).1 _ _ rfl
    exact ⟨_, _, rfl, h1, h2⟩
  · obtain h := (filename_write_discipline
      (fun _ => Except.ok ⟨"w.stl", "supertux-level", []⟩) (fun _ => false)
      "w.stl" "d" "W" false 1 (Except.error "")).2.1 _ rfl
    exact ⟨_, rfl, h⟩
  · obtain h := (filename_write_discipline
      (fun _ => Except.ok ⟨"w.stl", "supertux-level", []⟩) (fun _ => false)
      "w.stl" "d" "W" false 1 (Except.error "")).2.2.1 _ rfl
    exact ⟨_, rfl, h⟩
  · obtain ⟨h1, h2⟩ := (filename_write_discipline
      (fun _ => Except.ok ⟨"w.stl", "supertux-level", []⟩) (fun _ => false)
      "w.stl" "d" "W" false 1
      (Except.ok ⟨"s", "supertux-level", []⟩)).2.2.2 _ _ rfl
    exact ⟨_, _, rfl, h1, h2⟩

end LevelParser

end SuperTux
